import Mathlib

/-!
Verification development for the Espejo encrypted-sync core.

Shallow embedding of `src/lib/crypto.ts` (the versioned variant with
PBKDF2 iteration dispatch, which is the one exercised by the repository's
crypto test suite), `src/lib/sync.ts` (the sync protocol client),
`src/lib/entries.ts` / `src/lib/db.ts` (the local keyed record store),
`src/lib/export.ts` (backup export/import) and the v2 Supabase schema
(`src/supabase/schema.sql`, the variant with `verify_user_credentials`).

AES-256-GCM and PBKDF2 are modelled symbolically (ideal authenticated
cipher): a derived key is the tuple of password, salt and iteration
count; a ciphertext remembers the key and IV it was produced with, and
authenticated decryption succeeds exactly when the same key and IV are
presented.  All control flow around the primitives (version dispatch,
salt/IV plumbing, error signalling, merge logic, call construction) is
translated directly from the source.
-/

namespace Espejo

/-! ## Cryptographic engine (src/lib/crypto.ts, versioned variant) -/

/-- PBKDF2 iteration count for payload version 1 (legacy). -/
def PBKDF2_ITERATIONS_V1 : Nat := 100000

/-- PBKDF2 iteration count for payload version 2 (OWASP 2023). -/
def PBKDF2_ITERATIONS_V2 : Nat := 310000

/-- Current crypto payload version written by `encrypt`. -/
def CURRENT_CRYPTO_VERSION : Nat := 2

/-- Iteration count selected by `deriveKey` from the payload version:
`version >= 2 ? PBKDF2_ITERATIONS_V2 : PBKDF2_ITERATIONS_V1`. -/
def iterationsFor (version : Nat) : Nat :=
  if 2 ≤ version then PBKDF2_ITERATIONS_V2 else PBKDF2_ITERATIONS_V1

/-- A derived AES-GCM key, symbolically: PBKDF2 is deterministic in the
password, salt and iteration count, and the triples are kept distinct. -/
structure AesKey where
  password : String
  salt : Nat
  iterations : Nat
deriving DecidableEq, Repr

/-- `deriveKey(password, salt, version)`: key derivation with the
iteration count dispatched on the payload version. -/
def deriveKey (password : String) (salt : Nat) (version : Nat) : AesKey :=
  { password := password, salt := salt, iterations := iterationsFor version }

/-- Symbolic AES-GCM ciphertext over plaintexts of type `α`: an ideal
authenticated ciphertext remembers the key and IV used to produce it. -/
structure Ciphertext (α : Type) where
  key : AesKey
  iv : Nat
  plain : α
deriving DecidableEq, Repr

/-- Ideal authenticated decryption: succeeds with the original plaintext
exactly when the presented key and IV match; any mismatch fails the
integrity check. -/
def aesGcmDecrypt {α : Type} (key : AesKey) (iv : Nat) (ct : Ciphertext α) : Option α :=
  if ct.key = key ∧ ct.iv = iv then some ct.plain else none

/-- `EncryptedPayload` from crypto.ts.  `version` is `Option Nat` so that
pre-versioning payloads with the field absent can be represented. -/
structure EncryptedPayload (α : Type) where
  ciphertext : Ciphertext α
  iv : Nat
  salt : Nat
  version : Option Nat
deriving DecidableEq, Repr

/-- The version `decrypt` reads from the payload: `payload.version || 1`
in JS, so both an absent field and a stored `0` fall back to 1. -/
def payloadVersion {α : Type} (p : EncryptedPayload α) : Nat :=
  match p.version with
  | none => 1
  | some 0 => 1
  | some v => v

/-- `encrypt(data, password)`: derives a key at the current version with
a fresh salt, uses a fresh IV, and stamps the current version on the
payload.  Freshness of `salt` and `iv` is made explicit by passing the
random values as arguments. -/
def encrypt {α : Type} (data : α) (password : String) (salt iv : Nat) : EncryptedPayload α :=
  let key := deriveKey password salt CURRENT_CRYPTO_VERSION
  { ciphertext := { key := key, iv := iv, plain := data }
  , iv := iv
  , salt := salt
  , version := some CURRENT_CRYPTO_VERSION }

/-- The single error kind thrown by `decrypt`. -/
inductive CryptoError where
  | decryptionFailed
deriving DecidableEq, Repr

/-- `decrypt(payload, password)`: derives the key from the payload's own
salt and version and runs authenticated decryption; any failure of the
integrity check surfaces as the one error `DECRYPTION_FAILED`. -/
def decrypt {α : Type} (p : EncryptedPayload α) (password : String) : Except CryptoError α :=
  let key := deriveKey password p.salt (payloadVersion p)
  match aesGcmDecrypt key p.iv p.ciphertext with
  | some s => Except.ok s
  | none => Except.error CryptoError.decryptionFailed

/-- A payload constructed by hand at an explicit version `v`, mirroring
the manual v1-payload construction in the repository's crypto test:
the key is derived with `deriveKey(password, salt, v)` and the payload
records `version := v`. -/
def mkVersionedPayload {α : Type} (data : α) (password : String) (salt iv v : Nat) :
    EncryptedPayload α :=
  { ciphertext := { key := deriveKey password salt v, iv := iv, plain := data }
  , iv := iv
  , salt := salt
  , version := some v }

end Espejo

namespace Espejo

/-! ## C1, C3, C4: crypto claims -/

/-- Round-trip helper: decryption with the encrypting password recovers
the plaintext. -/
theorem encrypt_decrypt_ok {α : Type} (data : α) (password : String) (salt iv : Nat) :
    decrypt (encrypt data password salt iv) password = Except.ok data := by
  simp [decrypt, encrypt, payloadVersion, aesGcmDecrypt, CURRENT_CRYPTO_VERSION]

/-- Wrong-password helper: decryption under a different password fails
the authenticated-decryption integrity check. -/
theorem encrypt_decrypt_wrong {α : Type} (data : α) (w1 w2 : String) (salt iv : Nat)
    (hne : w1 ≠ w2) :
    decrypt (encrypt data w1 salt iv) w2 = Except.error CryptoError.decryptionFailed := by
  have hkey : deriveKey w2 salt CURRENT_CRYPTO_VERSION ≠
      deriveKey w1 salt CURRENT_CRYPTO_VERSION := by
    intro h
    exact hne (congrArg AesKey.password h).symm
  simp only [decrypt, encrypt, payloadVersion, aesGcmDecrypt]
  simp only [CURRENT_CRYPTO_VERSION]
  rw [if_neg]
  intro ⟨h1, _⟩
  exact hkey (by simpa [CURRENT_CRYPTO_VERSION] using h1.symm)

/-- C1: for every plaintext `data` and password `password` (and any fresh
salt/IV pair), `decrypt (encrypt data password) password` returns the
original plaintext.  The plaintext type is arbitrary, covering short
strings, long multi-script text and serialised structured data. -/
theorem crypto_roundtrip {α : Type} (data : α) (password : String) (salt iv : Nat) :
    decrypt (encrypt data password salt iv) password = Except.ok data :=
  encrypt_decrypt_ok data password salt iv

/-- C3: key derivation is version-dispatched.  `deriveKey` uses 100,000
PBKDF2 iterations for version 1 and 310,000 for any version ≥ 2;
`decrypt` reads the payload's own version, defaulting to 1 when the field
is absent, and derives with the matching count — so a manually built
version-1 payload and a version-2 payload both decrypt through the same
`decrypt`, while the version-1 payload would fail under a key derived at
the current version. -/
theorem deriveKey_version_dispatch :
    (iterationsFor 1 = 100000) ∧
    (∀ v : Nat, 2 ≤ v → iterationsFor v = 310000) ∧
    (∀ (α : Type) (p : EncryptedPayload α), p.version = none → payloadVersion p = 1) ∧
    (∀ (data password : String) (salt iv : Nat),
      decrypt (mkVersionedPayload data password salt iv 1) password = Except.ok data ∧
      decrypt (mkVersionedPayload data password salt iv 2) password = Except.ok data ∧
      aesGcmDecrypt (deriveKey password salt CURRENT_CRYPTO_VERSION) iv
        (mkVersionedPayload data password salt iv 1).ciphertext = none) := by
  refine ⟨rfl, ?_, ?_, ?_⟩
  · intro v hv
    simp [iterationsFor, hv, PBKDF2_ITERATIONS_V2]
  · intro α p hp
    simp [payloadVersion, hp]
  · intro data password salt iv
    refine ⟨?_, ?_, ?_⟩
    · simp [decrypt, mkVersionedPayload, payloadVersion, aesGcmDecrypt]
    · simp [decrypt, mkVersionedPayload, payloadVersion, aesGcmDecrypt]
    · simp [mkVersionedPayload, aesGcmDecrypt, deriveKey, iterationsFor,
        CURRENT_CRYPTO_VERSION, PBKDF2_ITERATIONS_V1, PBKDF2_ITERATIONS_V2]

/-- Witness for C3: the version-dispatch theorem applied at concrete
inputs discharging the `2 ≤ v` and `version = none` hypotheses. -/
theorem deriveKey_version_dispatch_witness :
    iterationsFor 3 = 310000 ∧
    payloadVersion { ciphertext := { key := deriveKey "pw" 0 1, iv := 0, plain := "x" }
                   , iv := 0, salt := 0, version := none } = 1 ∧
    decrypt (mkVersionedPayload "dato v1" "pw" 5 7 1) "pw" = Except.ok "dato v1" := by
  obtain ⟨-, h2, h3, h4⟩ := deriveKey_version_dispatch
  exact ⟨h2 3 (by decide),
    h3 String { ciphertext := { key := deriveKey "pw" 0 1, iv := 0, plain := "x" }
              , iv := 0, salt := 0, version := none } rfl,
    (h4 "dato v1" "pw" 5 7).1⟩

/-- C4: decrypting with the wrong password fails, and the failure is the
single error kind `DECRYPTION_FAILED`; moreover every failure of
`decrypt` (wrong password, corrupted ciphertext, tampering) is that same
single error kind, never anything more specific. -/
theorem decrypt_wrong_password {α : Type} (data : α) (w1 w2 : String) (salt iv : Nat)
    (hne : w1 ≠ w2) :
    decrypt (encrypt data w1 salt iv) w2 = Except.error CryptoError.decryptionFailed ∧
    (∀ (p : EncryptedPayload α) (pw : String) (e : CryptoError),
      decrypt p pw = Except.error e → e = CryptoError.decryptionFailed) := by
  constructor
  · exact encrypt_decrypt_wrong data w1 w2 salt iv hne
  · intro p pw e _
    cases e
    rfl

/-- Witness for C4: wrong-password rejection at a concrete input. -/
theorem decrypt_wrong_password_witness :
    decrypt (encrypt "secreto" "buena" 3 4) "mala" =
      Except.error CryptoError.decryptionFailed :=
  (decrypt_wrong_password "secreto" "buena" "mala" 3 4 (by decide)).1

/-! ## Local data model (src/lib/db.ts) and record codec (src/lib/sync.ts) -/

/-- A journal entry from db.ts.  The `habits` and `highlights` objects are
opaque JSON blobs for the sync logic, kept as strings. -/
structure Entry where
  id : String
  date : String
  createdAt : Nat
  updatedAt : Nat
  content : String
  moodTags : List String
  habits : String
  highlights : String
  wordCount : Nat
deriving DecidableEq, Repr

/-- A periodic review from db.ts.  Reviews have no `updatedAt`; the sync
layer uses `createdAt` in its place. -/
structure Review where
  id : String
  type : String
  periodStart : String
  reflectionText : String
  goals : List String
  createdAt : Nat
deriving DecidableEq, Repr

/-- The sensitive subset of an entry serialised into the ciphertext by
`encryptEntryForSync`: content, moodTags, habits, highlights, wordCount
and createdAt. -/
structure EntrySensitive where
  content : String
  moodTags : List String
  habits : String
  highlights : String
  wordCount : Nat
  createdAt : Nat
deriving DecidableEq, Repr

/-- The sensitive subset of a review serialised by
`encryptReviewForSync`: reflectionText, goals and createdAt. -/
structure ReviewSensitive where
  reflectionText : String
  goals : List String
  createdAt : Nat
deriving DecidableEq, Repr

/-- `EncryptedSyncEntry`: the wire form of an entry.  `deleted` is an
optional field (`deleted?: boolean`). -/
structure EncryptedSyncEntry where
  id : String
  date : String
  data : EncryptedPayload EntrySensitive
  updatedAt : Nat
  deleted : Option Bool
deriving DecidableEq, Repr

/-- `EncryptedSyncReview`: the wire form of a review. -/
structure EncryptedSyncReview where
  id : String
  type : String
  periodStart : String
  data : EncryptedPayload ReviewSensitive
  updatedAt : Nat
  deleted : Option Bool
deriving DecidableEq, Repr

/-- `encryptEntryForSync(entry, password)`: encrypts the sensitive subset
and leaves id, date and updatedAt in cleartext.  Note that no `deleted`
field is ever set. -/
def encryptEntryForSync (e : Entry) (password : String) (salt iv : Nat) :
    EncryptedSyncEntry :=
  { id := e.id
  , date := e.date
  , data := encrypt
      { content := e.content, moodTags := e.moodTags, habits := e.habits
      , highlights := e.highlights, wordCount := e.wordCount, createdAt := e.createdAt }
      password salt iv
  , updatedAt := e.updatedAt
  , deleted := none }

/-- `decryptEntryFromSync(encrypted, password)`: decrypts the payload and
rebuilds the entry from the cleartext wrapper fields plus the decrypted
sensitive fields. -/
def decryptEntryFromSync (r : EncryptedSyncEntry) (password : String) :
    Except CryptoError Entry :=
  (decrypt r.data password).map fun s =>
    { id := r.id, date := r.date, updatedAt := r.updatedAt
    , content := s.content, moodTags := s.moodTags, habits := s.habits
    , highlights := s.highlights, wordCount := s.wordCount, createdAt := s.createdAt }

/-- `encryptReviewForSync(review, password)`: the review analogue; the
wire `updatedAt` is the review's `createdAt`. -/
def encryptReviewForSync (r : Review) (password : String) (salt iv : Nat) :
    EncryptedSyncReview :=
  { id := r.id
  , type := r.type
  , periodStart := r.periodStart
  , data := encrypt
      { reflectionText := r.reflectionText, goals := r.goals, createdAt := r.createdAt }
      password salt iv
  , updatedAt := r.createdAt
  , deleted := none }

/-- `decryptReviewFromSync(encrypted, password)`. -/
def decryptReviewFromSync (r : EncryptedSyncReview) (password : String) :
    Except CryptoError Review :=
  (decrypt r.data password).map fun s =>
    { id := r.id, type := r.type, periodStart := r.periodStart
    , reflectionText := s.reflectionText, goals := s.goals, createdAt := s.createdAt }

/-- `db.entries.get(id)`: lookup by primary key in the keyed store. -/
def dbGet (st : List Entry) (id : String) : Option Entry :=
  st.find? (fun e => e.id = id)

/-- `db.entries.put(e)`: upsert by primary key. -/
def dbPut (st : List Entry) (e : Entry) : List Entry :=
  if st.any (fun x => x.id = e.id) then
    st.map (fun x => if x.id = e.id then e else x)
  else
    st ++ [e]

/-- `db.entries.delete(id)`: remove the record with the given key. -/
def dbDelete (st : List Entry) (id : String) : List Entry :=
  st.filter (fun e => ¬ e.id = id)

/-- Review-store lookup by primary key. -/
def dbGetReview (st : List Review) (id : String) : Option Review :=
  st.find? (fun r => r.id = id)

/-- Review-store upsert by primary key. -/
def dbPutReview (st : List Review) (r : Review) : List Review :=
  if st.any (fun x => x.id = r.id) then
    st.map (fun x => if x.id = r.id then r else x)
  else
    st ++ [r]

/-- `deleteEntry(id)` from entries.ts: a plain keyed delete of the local
record — no tombstone is written. -/
def deleteEntry (st : List Entry) (id : String) : List Entry :=
  dbDelete st id

/-- The pulled/conflict counters threaded through the merge loops of
`sync()`. -/
structure MergeCounts where
  pulled : Nat
  conflicts : Nat
deriving DecidableEq, Repr

/-- One iteration of the remote-entries merge loop in `sync()`
(src/lib/sync.ts): decrypt the record (skipping it on failure), look up
the local copy by id, and apply last-write-wins by `updatedAt` with
tombstone handling. -/
def applyRemoteEntry (password : String) (st : List Entry) (c : MergeCounts)
    (r : EncryptedSyncEntry) : List Entry × MergeCounts :=
  match decryptEntryFromSync r password with
  | Except.error _ => (st, c)
  | Except.ok decrypted =>
    match dbGet st decrypted.id with
    | none =>
      if r.deleted = some true then
        (dbDelete st decrypted.id, { c with pulled := c.pulled + 1 })
      else
        (dbPut st decrypted, { c with pulled := c.pulled + 1 })
    | some localE =>
      if localE.updatedAt < decrypted.updatedAt then
        if r.deleted = some true then
          (dbDelete st decrypted.id, { c with pulled := c.pulled + 1 })
        else
          (dbPut st decrypted, { c with pulled := c.pulled + 1 })
      else if decrypted.updatedAt < localE.updatedAt then
        (st, { c with conflicts := c.conflicts + 1 })
      else
        (st, c)

/-- One iteration of the remote-reviews merge loop in `sync()`: a review
is written only when it does not exist locally and is not tombstoned;
nothing else happens (no overwrite, no delete, no conflict counting). -/
def applyRemoteReview (password : String) (st : List Review) (c : MergeCounts)
    (r : EncryptedSyncReview) : List Review × MergeCounts :=
  match decryptReviewFromSync r password with
  | Except.error _ => (st, c)
  | Except.ok decrypted =>
    match dbGetReview st decrypted.id with
    | none =>
      if r.deleted = some true then
        (st, c)
      else
        (dbPutReview st decrypted, { c with pulled := c.pulled + 1 })
    | some _ => (st, c)

/-! ### Merge lemmas -/

/-- A successfully decrypted sync entry carries the wrapper's id and
updatedAt. -/
theorem decryptEntryFromSync_ok (r : EncryptedSyncEntry) (pw : String) (d : Entry)
    (h : decryptEntryFromSync r pw = Except.ok d) :
    d.id = r.id ∧ d.updatedAt = r.updatedAt := by
  unfold decryptEntryFromSync at h
  cases hd : decrypt r.data pw with
  | ok s =>
    rw [hd] at h
    simp only [Except.map] at h
    cases h
    exact ⟨rfl, rfl⟩
  | error e =>
    rw [hd] at h
    simp [Except.map] at h

/-- A successfully decrypted sync review carries the wrapper's id. -/
theorem decryptReviewFromSync_ok (r : EncryptedSyncReview) (pw : String) (d : Review)
    (h : decryptReviewFromSync r pw = Except.ok d) :
    d.id = r.id := by
  unfold decryptReviewFromSync at h
  cases hd : decrypt r.data pw with
  | ok s =>
    rw [hd] at h
    simp only [Except.map] at h
    cases h
    rfl
  | error e =>
    rw [hd] at h
    simp [Except.map] at h

/-- Deleting an absent key leaves the entry store unchanged. -/
theorem dbDelete_of_absent (st : List Entry) (id : String) (h : dbGet st id = none) :
    dbDelete st id = st := by
  unfold dbGet at h
  unfold dbDelete
  rw [List.filter_eq_self]
  intro a ha
  have := List.find?_eq_none.mp h a ha
  simpa using this

/-! ## C2: last-write-wins entry merge -/

/-- C2: one step of the remote-entries merge of `sync()`.  For a remote
record that decrypts: with no local copy, a tombstone leaves the store
unchanged (no record is created) and otherwise the record is upserted;
with a strictly newer remote `updatedAt`, a tombstone deletes the local
record and otherwise the remote upserts, never counting a conflict; with
a strictly older remote `updatedAt` the local entry is retained unchanged
and the conflict count is incremented; equal timestamps are a no-op. -/
theorem sync_entries_lastWriteWins (password : String) (st : List Entry)
    (c : MergeCounts) (r : EncryptedSyncEntry) (decrypted : Entry)
    (hdec : decryptEntryFromSync r password = Except.ok decrypted) :
    (dbGet st r.id = none → r.deleted = some true →
      applyRemoteEntry password st c r = (st, { c with pulled := c.pulled + 1 })) ∧
    (dbGet st r.id = none → ¬ r.deleted = some true →
      applyRemoteEntry password st c r =
        (dbPut st decrypted, { c with pulled := c.pulled + 1 })) ∧
    (∀ localE, dbGet st r.id = some localE → localE.updatedAt < r.updatedAt →
      r.deleted = some true →
      applyRemoteEntry password st c r =
        (dbDelete st r.id, { c with pulled := c.pulled + 1 })) ∧
    (∀ localE, dbGet st r.id = some localE → localE.updatedAt < r.updatedAt →
      ¬ r.deleted = some true →
      applyRemoteEntry password st c r =
        (dbPut st decrypted, { c with pulled := c.pulled + 1 })) ∧
    (∀ localE, dbGet st r.id = some localE → r.updatedAt < localE.updatedAt →
      applyRemoteEntry password st c r = (st, { c with conflicts := c.conflicts + 1 })) ∧
    (∀ localE, dbGet st r.id = some localE → r.updatedAt = localE.updatedAt →
      applyRemoteEntry password st c r = (st, c)) := by
  obtain ⟨hid, hupd⟩ := decryptEntryFromSync_ok r password decrypted hdec
  refine ⟨?_, ?_, ?_, ?_, ?_, ?_⟩
  · intro hnone hdel
    simp only [applyRemoteEntry, hdec, hid, hnone, hdel, if_pos]
    rw [dbDelete_of_absent st r.id hnone]
  · intro hnone hdel
    simp only [applyRemoteEntry, hdec, hid, hnone]
    simp [hdel]
  · intro localE hsome hlt hdel
    simp only [applyRemoteEntry, hdec, hid, hsome, hupd]
    simp [hlt, hdel]
  · intro localE hsome hlt hdel
    simp only [applyRemoteEntry, hdec, hid, hsome, hupd]
    simp [hlt, hdel]
  · intro localE hsome hlt
    have hnlt : ¬ localE.updatedAt < r.updatedAt := Nat.not_lt.mpr (Nat.le_of_lt hlt)
    simp only [applyRemoteEntry, hdec, hid, hsome, hupd]
    simp [hnlt, hlt]
  · intro localE hsome heq
    have h1 : ¬ localE.updatedAt < r.updatedAt := by omega
    have h2 : ¬ r.updatedAt < localE.updatedAt := by omega
    simp only [applyRemoteEntry, hdec, hid, hsome, hupd]
    simp [h1, h2]

/-- Witness for C2: a concrete encrypted entry merged into an empty store
is upserted with the pulled counter incremented. -/
theorem sync_entries_lastWriteWins_witness :
    applyRemoteEntry "clave" []
      { pulled := 0, conflicts := 0 }
      (encryptEntryForSync
        { id := "e1", date := "2026-01-01", createdAt := 10, updatedAt := 20
        , content := "hola", moodTags := ["calma"], habits := "h", highlights := "l"
        , wordCount := 1 } "clave" 1 2) =
      ([{ id := "e1", date := "2026-01-01", createdAt := 10, updatedAt := 20
        , content := "hola", moodTags := ["calma"], habits := "h", highlights := "l"
        , wordCount := 1 }], { pulled := 1, conflicts := 0 }) := by
  have h := sync_entries_lastWriteWins "clave" []
    { pulled := 0, conflicts := 0 }
    (encryptEntryForSync
      { id := "e1", date := "2026-01-01", createdAt := 10, updatedAt := 20
      , content := "hola", moodTags := ["calma"], habits := "h", highlights := "l"
      , wordCount := 1 } "clave" 1 2)
    { id := "e1", date := "2026-01-01", createdAt := 10, updatedAt := 20
    , content := "hola", moodTags := ["calma"], habits := "h", highlights := "l"
    , wordCount := 1 }
    (by rfl)
  have h2 := h.2.1 (by rfl) (by decide)
  rw [h2]
  rfl

/-! ## C10: insert-only review merge -/

/-- C10: one step of the remote-reviews merge of `sync()`.  A remote
review is written only when no local review with that id exists and the
tombstone flag is not set; an existing local review is never overwritten
or deleted regardless of `updatedAt`; the conflict counter is never
touched by the review merge. -/
theorem sync_reviews_insert_only (password : String) (st : List Review)
    (c : MergeCounts) (r : EncryptedSyncReview) :
    ((applyRemoteReview password st c r).2.conflicts = c.conflicts) ∧
    (∀ localR, dbGetReview st r.id = some localR →
      applyRemoteReview password st c r = (st, c)) ∧
    (r.deleted = some true → applyRemoteReview password st c r = (st, c)) ∧
    (∀ decrypted, decryptReviewFromSync r password = Except.ok decrypted →
      dbGetReview st r.id = none → ¬ r.deleted = some true →
      applyRemoteReview password st c r =
        (dbPutReview st decrypted, { c with pulled := c.pulled + 1 })) := by
  refine ⟨?_, ?_, ?_, ?_⟩
  · cases hd : decryptReviewFromSync r password with
    | error e => simp [applyRemoteReview, hd]
    | ok d =>
      cases hg : dbGetReview st d.id with
      | none =>
        by_cases hdel : r.deleted = some true
        · simp [applyRemoteReview, hd, hg, hdel]
        · simp [applyRemoteReview, hd, hg, hdel]
      | some localR => simp [applyRemoteReview, hd, hg]
  · intro localR hsome
    cases hd : decryptReviewFromSync r password with
    | error e => simp [applyRemoteReview, hd]
    | ok d =>
      have hid := decryptReviewFromSync_ok r password d hd
      simp [applyRemoteReview, hd, hid, hsome]
  · intro hdel
    cases hd : decryptReviewFromSync r password with
    | error e => simp [applyRemoteReview, hd]
    | ok d =>
      cases hg : dbGetReview st d.id with
      | none => simp [applyRemoteReview, hd, hg, hdel]
      | some localR => simp [applyRemoteReview, hd, hg]
  · intro decrypted hdec hnone hdel
    have hid := decryptReviewFromSync_ok r password decrypted hdec
    simp [applyRemoteReview, hdec, hid, hnone, hdel]

/-- Witness for C10: a concrete review already present locally is left
unchanged by the review merge. -/
theorem sync_reviews_insert_only_witness :
    applyRemoteReview "clave"
      [{ id := "r1", type := "weekly", periodStart := "2026-01-05"
       , reflectionText := "vieja", goals := [], createdAt := 50 }]
      { pulled := 0, conflicts := 0 }
      (encryptReviewForSync
        { id := "r1", type := "weekly", periodStart := "2026-01-05"
        , reflectionText := "nueva", goals := ["g"], createdAt := 99 } "clave" 1 2) =
      ([{ id := "r1", type := "weekly", periodStart := "2026-01-05"
        , reflectionText := "vieja", goals := [], createdAt := 50 }],
       { pulled := 0, conflicts := 0 }) := by
  exact (sync_reviews_insert_only "clave"
    [{ id := "r1", type := "weekly", periodStart := "2026-01-05"
     , reflectionText := "vieja", goals := [], createdAt := 50 }]
    { pulled := 0, conflicts := 0 }
    (encryptReviewForSync
      { id := "r1", type := "weekly", periodStart := "2026-01-05"
      , reflectionText := "nueva", goals := ["g"], createdAt := 99 } "clave" 1 2)).2.1
    { id := "r1", type := "weekly", periodStart := "2026-01-05"
    , reflectionText := "vieja", goals := [], createdAt := 50 } (by decide)

/-! ## Hashing and the sync protocol client (src/lib/sync.ts) -/

/-- Symbolic string values flowing through the credential pipeline: raw
strings, concatenation, and SHA-256 digests kept as distinct terms. -/
inductive SVal where
  | str : String → SVal
  | cat : SVal → SVal → SVal
  | sha256 : SVal → SVal
deriving DecidableEq, Repr

/-- `hashPassword(password)`: SHA-256 of the input concatenated with the
fixed application string "espejo_verify_salt". -/
def hashPassword (v : SVal) : SVal :=
  SVal.sha256 (SVal.cat v (SVal.str "espejo_verify_salt"))

/-- Whether a symbolic value is a digest (the head constructor is a
SHA-256 application), as produced by `hashPassword`. -/
def svalIsHash : SVal → Bool
  | SVal.sha256 _ => true
  | _ => false

/-- `SyncConfig`, the durable local configuration persisted by
`saveSyncConfig`.  Its fields are exactly those of the source interface:
there is no passphrase field. -/
structure SyncConfig where
  enabled : Bool
  userHash : SVal
  passwordHash : SVal
  lastSyncAt : Nat
  deviceId : String
deriving DecidableEq, Repr

/-- Client-side storage: the durable localStorage slot holding the
`SyncConfig` and the volatile sessionStorage slot holding the session
passphrase. -/
structure ClientState where
  localConfig : Option SyncConfig
  sessionPassword : Option String
deriving DecidableEq, Repr

/-- `saveSyncConfig(config)`: write the config to durable storage. -/
def saveSyncConfig (st : ClientState) (config : SyncConfig) : ClientState :=
  { st with localConfig := some config }

/-- `setSyncPassword(password)`: write the passphrase to the volatile
session-scoped store only. -/
def setSyncPassword (st : ClientState) (password : String) : ClientState :=
  { st with sessionPassword := some password }

/-- `getSyncPassword()`. -/
def getSyncPassword (st : ClientState) : Option String :=
  st.sessionPassword

/-- A value passed as an RPC argument on the wire.  Encrypted records
travel as ciphertext structures; credential material as symbolic hash
values; device metadata as plain strings. -/
inductive Arg where
  | cred : SVal → Arg
  | entriesArg : List EncryptedSyncEntry → Arg
  | reviewsArg : List EncryptedSyncReview → Arg
  | entryArg : EncryptedSyncEntry → Arg
  | num : Nat → Arg
  | device : String → Arg
deriving DecidableEq, Repr

/-- A remote RPC call: function name and named arguments, in the order
the client passes them. -/
structure RemoteCall where
  fn : String
  args : List (String × Arg)
deriving DecidableEq, Repr

/-- An argument carries the string `s` in the clear when it is either the
raw string as credential material or as device metadata. -/
def argIsRawString (a : Arg) (s : String) : Bool :=
  match a with
  | Arg.cred v => v = SVal.str s
  | Arg.device d => d = s
  | _ => false

/-- Response shape of `register_or_auth_user` as read by the client. -/
structure RpcAuthResponse where
  success : Bool
  isNew : Option Bool
  error : Option String
deriving DecidableEq, Repr

/-- Outcome of `setupSync`. -/
structure SetupResult where
  success : Bool
  error : Option String
  isNew : Option Bool
deriving DecidableEq, Repr

/-- The `register_or_auth_user` call as the client builds it in
`setupSync`: user hash, verification token and device metadata. -/
def registerCall (userHash verificationToken : SVal) (deviceId deviceName : String) :
    RemoteCall :=
  { fn := "register_or_auth_user"
  , args := [ ("p_user_hash", Arg.cred userHash)
            , ("p_verification_token", Arg.cred verificationToken)
            , ("p_device_id", Arg.device deviceId)
            , ("p_device_name", Arg.device deviceName) ] }

/-- `setupSync(email, password)` from sync.ts: hashes the normalised
email into `userHash`, the password into `passwordHash`, and the password
hash again into the verification token; issues the
`register_or_auth_user` call; on success persists the config (which
holds only hashes) and puts the raw passphrase into session storage.
The RPC outcome is passed in as an oracle argument. -/
def setupSync (email password deviceId deviceName : String)
    (supabaseAvailable : Bool) (authRpc : Except String (Option RpcAuthResponse))
    (st : ClientState) : ClientState × List RemoteCall × SetupResult :=
  if ¬ supabaseAvailable then
    (st, [], { success := false, error := some "Supabase no configurado", isNew := none })
  else
    let userHash := hashPassword (SVal.str (email.toLower.trim))
    let passwordHash := hashPassword (SVal.str password)
    let verificationToken := hashPassword passwordHash
    let call := registerCall userHash verificationToken deviceId deviceName
    match authRpc with
    | Except.error msg =>
      (st, [call], { success := false, error := some msg, isNew := none })
    | Except.ok none =>
      (st, [call], { success := false, error := some "Error de autenticación", isNew := none })
    | Except.ok (some data) =>
      if ¬ data.success then
        (st, [call],
         { success := false
         , error := some (if data.error = some "INVALID_CREDENTIALS" then
             "Email o contraseña incorrectos" else "Error de autenticación")
         , isNew := none })
      else
        let config : SyncConfig :=
          { enabled := true, userHash := userHash, passwordHash := passwordHash
          , lastSyncAt := 0, deviceId := deviceId }
        (setSyncPassword (saveSyncConfig st config) password, [call],
         { success := true, error := none, isNew := data.isNew })

/-- Response shape of `sync_entries` as read by the client. -/
structure RpcSyncEntriesResponse where
  success : Bool
  pushed : Nat
  pulled : Nat
  entries : List EncryptedSyncEntry
  serverTime : Nat
deriving DecidableEq, Repr

/-- Response shape of `sync_reviews` as read by the client. -/
structure RpcSyncReviewsResponse where
  success : Bool
  pushed : Nat
  pulled : Nat
  reviews : List EncryptedSyncReview
  serverTime : Nat
deriving DecidableEq, Repr

/-- Response shape of `sync_single_entry` as read by the client. -/
structure RpcSingleEntryResponse where
  success : Bool
  synced : Bool
  error : Option String
deriving DecidableEq, Repr

/-- `SyncResult` returned by `sync()`. -/
structure SyncResult where
  success : Bool
  pushed : Nat
  pulled : Nat
  conflicts : Nat
  error : Option String
deriving DecidableEq, Repr

/-- Sync a batch of local entries: each is encrypted with its own fresh
salt/IV pair drawn from the entropy stream. -/
def encryptEntriesBatch (es : List Entry) (pw : String) (entropy : Nat → Nat × Nat) :
    List EncryptedSyncEntry :=
  es.enum.map (fun p => encryptEntryForSync p.2 pw (entropy p.1).1 (entropy p.1).2)

/-- The review analogue of `encryptEntriesBatch`. -/
def encryptReviewsBatch (rs : List Review) (pw : String) (entropy : Nat → Nat × Nat) :
    List EncryptedSyncReview :=
  rs.enum.map (fun p => encryptReviewForSync p.2 pw (entropy p.1).1 (entropy p.1).2)

/-- The `sync_entries` call exactly as the client builds it: note the
argument list — user hash, encrypted batch and cursor only. -/
def syncEntriesCall (config : SyncConfig) (encryptedEntries : List EncryptedSyncEntry) :
    RemoteCall :=
  { fn := "sync_entries"
  , args := [ ("p_user_hash", Arg.cred config.userHash)
            , ("p_entries", Arg.entriesArg encryptedEntries)
            , ("p_last_sync_at", Arg.num config.lastSyncAt) ] }

/-- The `sync_reviews` call exactly as the client builds it. -/
def syncReviewsCall (config : SyncConfig) (encryptedReviews : List EncryptedSyncReview) :
    RemoteCall :=
  { fn := "sync_reviews"
  , args := [ ("p_user_hash", Arg.cred config.userHash)
            , ("p_reviews", Arg.reviewsArg encryptedReviews)
            , ("p_last_sync_at", Arg.num config.lastSyncAt) ] }

/-- Environment of one `sync()` invocation: the client storage, the local
database, availability flags, the oracle outcomes of the two RPCs, the
client clock for `Date.now()` and the entropy stream for salts/IVs. -/
structure SyncEnv where
  state : ClientState
  dbEntries : List Entry
  dbReviews : List Review
  supabaseAvailable : Bool
  passwordArg : Option String
  entriesRpc : Except String (Option RpcSyncEntriesResponse)
  reviewsRpc : Except String (Option RpcSyncReviewsResponse)
  clientNow : Nat
  entropy : Nat → Nat × Nat

/-- Observable outcome of one `sync()` invocation: storage, database,
calls issued and the returned `SyncResult`. -/
structure SyncRunOut where
  state : ClientState
  dbEntries : List Entry
  dbReviews : List Review
  calls : List RemoteCall
  result : SyncResult

/-- A failure return of `sync()`: structured error result, nothing
written. -/
def syncFail (env : SyncEnv) (calls : List RemoteCall) (msg : String) : SyncRunOut :=
  { state := env.state, dbEntries := env.dbEntries, dbReviews := env.dbReviews
  , calls := calls
  , result := { success := false, pushed := 0, pulled := 0, conflicts := 0, error := some msg } }

/-- `sync(password?)` from sync.ts, translated step by step: guard
clauses, collect-above-cursor, encrypt, exchange entries, merge remote
entries, exchange reviews (failure tolerated), merge remote reviews,
then set `lastSyncAt` to `Math.floor(serverTime || Date.now())` and
persist the config. -/
def syncRun (env : SyncEnv) : SyncRunOut :=
  match env.state.localConfig with
  | none => syncFail env [] "Sync no configurado"
  | some config =>
    if ¬ config.enabled then syncFail env [] "Sync no configurado"
    else if ¬ env.supabaseAvailable then syncFail env [] "Supabase no disponible"
    else
      match env.passwordArg <|> env.state.sessionPassword with
      | none => syncFail env [] "Contraseña requerida"
      | some syncPassword =>
        let localEntries := env.dbEntries.filter (fun e => config.lastSyncAt < e.updatedAt)
        let encryptedEntries := encryptEntriesBatch localEntries syncPassword env.entropy
        let entriesCall := syncEntriesCall config encryptedEntries
        match env.entriesRpc with
        | Except.error _ => syncFail env [entriesCall] "Error al sincronizar entries"
        | Except.ok none => syncFail env [entriesCall] "Error de sincronización"
        | Except.ok (some entriesResult) =>
          if ¬ entriesResult.success then
            syncFail env [entriesCall] "Error de sincronización"
          else
            let merged := entriesResult.entries.foldl
              (fun p r => applyRemoteEntry syncPassword p.1 p.2 r)
              (env.dbEntries, { pulled := 0, conflicts := 0 })
            let localReviews := env.dbReviews.filter (fun r => config.lastSyncAt < r.createdAt)
            let encryptedReviews := encryptReviewsBatch localReviews syncPassword env.entropy
            let reviewsCall := syncReviewsCall config encryptedReviews
            let afterReviews :=
              match env.reviewsRpc with
              | Except.ok (some reviewsResult) =>
                if reviewsResult.success then
                  let m2 := reviewsResult.reviews.foldl
                    (fun p r => applyRemoteReview syncPassword p.1 p.2 r)
                    (env.dbReviews, merged.2)
                  (m2.1, m2.2, entriesResult.pushed + reviewsResult.pushed)
                else (env.dbReviews, merged.2, entriesResult.pushed)
              | _ => (env.dbReviews, merged.2, entriesResult.pushed)
            let newConfig :=
              { config with lastSyncAt :=
                  if entriesResult.serverTime ≠ 0 then entriesResult.serverTime
                  else env.clientNow }
            { state := saveSyncConfig env.state newConfig
            , dbEntries := merged.1
            , dbReviews := afterReviews.1
            , calls := [entriesCall, reviewsCall]
            , result := { success := true, pushed := afterReviews.2.2
                        , pulled := afterReviews.2.1.pulled
                        , conflicts := afterReviews.2.1.conflicts, error := none } }

/-- Outcome of the single-record fast path `syncEntry`. -/
structure SyncEntryResult where
  success : Bool
  needsUnlock : Option Bool
  error : Option String
deriving DecidableEq, Repr

/-- The `sync_single_entry` call as the client builds it: user hash and
the one encrypted record. -/
def singleEntryCall (config : SyncConfig) (encrypted : EncryptedSyncEntry) : RemoteCall :=
  { fn := "sync_single_entry"
  , args := [ ("p_user_hash", Arg.cred config.userHash)
            , ("p_entry", Arg.entryArg encrypted) ] }

/-- `syncEntry(entry)` from sync.ts: guard clauses, encrypt the single
record, issue `sync_single_entry` (user hash and encrypted record only),
and on acknowledgement set the cursor to the client clock `Date.now()`. -/
def syncEntrySingle (entry : Entry) (st : ClientState) (supabaseAvailable : Bool)
    (singleRpc : Except String (Option RpcSingleEntryResponse)) (salt iv clientNow : Nat) :
    ClientState × List RemoteCall × SyncEntryResult :=
  match st.localConfig with
  | none => (st, [], { success := false, needsUnlock := none, error := some "Sync no habilitado" })
  | some config =>
    if ¬ config.enabled then
      (st, [], { success := false, needsUnlock := none, error := some "Sync no habilitado" })
    else
      match getSyncPassword st with
      | none =>
        (st, [], { success := false, needsUnlock := some true, error := some "Sesión expirada" })
      | some password =>
        if ¬ supabaseAvailable then
          (st, [], { success := false, needsUnlock := none, error := some "Supabase no disponible" })
        else
          let encrypted := encryptEntryForSync entry password salt iv
          let call := singleEntryCall config encrypted
          match singleRpc with
          | Except.error msg =>
            (st, [call], { success := false, needsUnlock := none, error := some msg })
          | Except.ok none =>
            (st, [call],
             { success := false, needsUnlock := none, error := some "Error desconocido" })
          | Except.ok (some data) =>
            if data.success then
              (saveSyncConfig st { config with lastSyncAt := clientNow }, [call],
               { success := true, needsUnlock := none, error := none })
            else
              (st, [call],
               { success := false, needsUnlock := none
               , error := some (data.error.getD "Error desconocido") })

/-! ## Remote sync service (src/supabase/schema.sql, v2 secure schema) -/

/-- Parameter names of the v2 `sync_entries` SQL function, in declaration
order. -/
def serverSyncEntriesParamNames : List String :=
  ["p_user_hash", "p_verification_token", "p_entries", "p_last_sync_at"]

/-- Parameter names of the v2 `sync_reviews` SQL function. -/
def serverSyncReviewsParamNames : List String :=
  ["p_user_hash", "p_verification_token", "p_reviews", "p_last_sync_at"]

/-- Parameter names of the v2 `sync_single_entry` SQL function. -/
def serverSyncSingleEntryParamNames : List String :=
  ["p_user_hash", "p_verification_token", "p_entry"]

/-- Parameter names of the v2 `register_or_auth_user` SQL function. -/
def serverRegisterParamNames : List String :=
  ["p_user_hash", "p_verification_token", "p_device_id", "p_device_name"]

/-- A row of `sync_users` in the v2 schema, identified by its user hash. -/
structure ServerUser where
  userHash : SVal
  token : SVal
  failedAttempts : Nat
  lockedUntil : Option Nat
  lastSyncAt : Option Nat
deriving DecidableEq, Repr

/-- Lock duration applied after repeated invalid attempts (15 minutes,
in milliseconds). -/
def LOCK_INTERVAL_MS : Nat := 15 * 60 * 1000

/-- The exception raised by `verify_user_credentials` on a locked
account. -/
inductive VerifyErr where
  | accountLocked
deriving DecidableEq, Repr

/-- `verify_user_credentials(p_user_hash, p_verification_token)` from the
v2 schema: missing user yields NULL; a live lock raises ACCOUNT_LOCKED;
an invalid token increments the failure counter (locking when the prior
count reached 4) and yields NULL; a valid token resets the counter and
returns the user. -/
def verifyUserCredentials (now : Nat) (users : List ServerUser) (h tok : SVal) :
    Except VerifyErr (Option SVal × List ServerUser) :=
  match users.find? (fun u => u.userHash = h) with
  | none => Except.ok (none, users)
  | some u =>
    if u.lockedUntil.any (fun t => now < t) then
      Except.error VerifyErr.accountLocked
    else if u.token ≠ tok then
      let u' : ServerUser :=
        { u with
          failedAttempts := u.failedAttempts + 1
          lockedUntil :=
            if 4 ≤ u.failedAttempts then some (now + LOCK_INTERVAL_MS)
            else u.lockedUntil }
      Except.ok (none, users.map (fun x => if x.userHash = h then u' else x))
    else
      Except.ok (some u.userHash,
        users.map (fun x =>
          if x.userHash = h then
            { x with failedAttempts := 0, lockedUntil := none, lastSyncAt := some now }
          else x))

/-- A row of `encrypted_entries`, keyed by `(user_id, id)`. -/
structure ServerEntryRow where
  userId : SVal
  id : String
  entryDate : String
  data : EncryptedPayload EntrySensitive
  updatedAt : Nat
  deleted : Bool
deriving DecidableEq, Repr

/-- A row of `encrypted_reviews`, keyed by `(user_id, id)`. -/
structure ServerReviewRow where
  userId : SVal
  id : String
  reviewType : String
  periodStart : String
  data : EncryptedPayload ReviewSensitive
  updatedAt : Nat
  deleted : Bool
deriving DecidableEq, Repr

/-- The `INSERT ... ON CONFLICT (user_id, id) DO UPDATE ... WHERE
existing.updated_at < EXCLUDED.updated_at` upsert used by `sync_entries`
and `sync_single_entry`: insert a missing row, overwrite a strictly
older row, leave everything else alone — rows are never removed. -/
def upsertEntryRow (rows : List ServerEntryRow) (userId : SVal) (w : EncryptedSyncEntry) :
    List ServerEntryRow :=
  if rows.any (fun row => row.userId = userId ∧ row.id = w.id) then
    rows.map (fun row =>
      if row.userId = userId ∧ row.id = w.id ∧ row.updatedAt < w.updatedAt then
        { row with data := w.data, updatedAt := w.updatedAt, deleted := w.deleted.getD false }
      else row)
  else
    rows ++ [{ userId := userId, id := w.id, entryDate := w.date, data := w.data
             , updatedAt := w.updatedAt, deleted := w.deleted.getD false }]

/-- The entry-upsert loop of the v2 `sync_entries` function. -/
def serverSyncEntriesUpserts (rows : List ServerEntryRow) (userId : SVal)
    (ws : List EncryptedSyncEntry) : List ServerEntryRow :=
  ws.foldl (fun acc w => upsertEntryRow acc userId w) rows

/-- The review analogue of `upsertEntryRow` used by `sync_reviews`. -/
def upsertReviewRow (rows : List ServerReviewRow) (userId : SVal) (w : EncryptedSyncReview) :
    List ServerReviewRow :=
  if rows.any (fun row => row.userId = userId ∧ row.id = w.id) then
    rows.map (fun row =>
      if row.userId = userId ∧ row.id = w.id ∧ row.updatedAt < w.updatedAt then
        { row with data := w.data, updatedAt := w.updatedAt, deleted := w.deleted.getD false }
      else row)
  else
    rows ++ [{ userId := userId, id := w.id, reviewType := w.type, periodStart := w.periodStart
             , data := w.data, updatedAt := w.updatedAt, deleted := w.deleted.getD false }]

/-- The review-upsert loop of the v2 `sync_reviews` function. -/
def serverSyncReviewsUpserts (rows : List ServerReviewRow) (userId : SVal)
    (ws : List EncryptedSyncReview) : List ServerReviewRow :=
  ws.foldl (fun acc w => upsertReviewRow acc userId w) rows

/-! ## Export and import (src/lib/export.ts) -/

/-- User settings stored in the local database (db.ts). -/
structure Settings where
  id : String
  encryptionSalt : Option String
  enabledHabits : List String
  moodOptions : List String
  colorPalette : String
  isDemoMode : Bool
deriving DecidableEq, Repr

/-- The three local stores read and written by export/import. -/
structure Db where
  entries : List Entry
  settings : Option Settings
  reviews : List Review
deriving DecidableEq, Repr

/-- The empty local database. -/
def emptyDb : Db := { entries := [], settings := none, reviews := [] }

/-- The plaintext export bundle. -/
structure ExportData where
  version : String
  exportedAt : Nat
  entries : List Entry
  settings : Option Settings
  reviews : List Review
deriving DecidableEq, Repr

/-- The encrypted export bundle; the `format: "encrypted"` tag is carried
by the `ImportFile` constructor below. -/
structure EncryptedExportData where
  version : String
  exportedAt : Nat
  payload : EncryptedPayload ExportData
deriving DecidableEq, Repr

/-- A parsed import file, after the format auto-detection of
`importData` (the legacy base64 fallback is only reachable for inputs
that parse as neither shape and plays no role here). -/
inductive ImportFile where
  | encryptedFile : EncryptedExportData → ImportFile
  | plainFile : ExportData → ImportFile
deriving DecidableEq, Repr

/-- Error thrown by `exportEncryptedSecure` on a too-short password. -/
inductive ExportError where
  | passwordTooShort
deriving DecidableEq, Repr

/-- Errors thrown out of `importData` on the encrypted path: the
password-required message, and the message produced from the
`DECRYPTION_FAILED` failure of `decrypt` (both propagate through
`importData`'s catch filter since they match its message patterns). -/
inductive ImportError where
  | requiresPassword
  | wrongPasswordOrCorrupt
deriving DecidableEq, Repr

/-- Result record returned by the import functions. -/
structure ImportResult where
  imported : Nat
  skipped : Nat
  format : String
deriving DecidableEq, Repr

/-- `exportEncryptedSecure(password)`: rejects passwords shorter than 8
characters, then encrypts the whole serialised plaintext bundle with the
Cryptographic Engine. -/
def exportEncryptedSecure (dbSt : Db) (password : String) (now salt iv : Nat) :
    Except ExportError EncryptedExportData :=
  if password.length < 8 then Except.error ExportError.passwordTooShort
  else
    Except.ok
      { version := "2.0.0", exportedAt := now
      , payload := encrypt
          { version := "2.0.0", exportedAt := now, entries := dbSt.entries
          , settings := dbSt.settings, reviews := dbSt.reviews } password salt iv }

/-- One step of the entries loop of `importPlaintext`: add a missing
entry, overwrite with a strictly newer one, otherwise skip. -/
def importEntriesStep (dbE : List Entry) (counts : Nat × Nat) (e : Entry) :
    List Entry × (Nat × Nat) :=
  match dbGet dbE e.id with
  | none => (dbE ++ [e], (counts.1 + 1, counts.2))
  | some existing =>
    if existing.updatedAt < e.updatedAt then (dbPut dbE e, (counts.1 + 1, counts.2))
    else (dbE, (counts.1, counts.2 + 1))

/-- One step of the reviews loop of `importPlaintext`: reviews are added
only when absent. -/
def importReviewsStep (dbR : List Review) (imported : Nat) (r : Review) :
    List Review × Nat :=
  match dbGetReview dbR r.id with
  | none => (dbR ++ [r], imported + 1)
  | some _ => (dbR, imported)

/-- `importPlaintext(data)` from export.ts. -/
def importPlaintext (d : ExportData) (dbSt : Db) : Db × ImportResult :=
  let ec := d.entries.foldl (fun p e => importEntriesStep p.1 p.2 e)
    (dbSt.entries, (0, 0))
  let settingsOut := match d.settings with
    | some s => some s
    | none => dbSt.settings
  let rc := d.reviews.foldl (fun p r => importReviewsStep p.1 p.2 r)
    (dbSt.reviews, ec.2.1)
  ({ entries := ec.1, settings := settingsOut, reviews := rc.1 },
   { imported := rc.2, skipped := ec.2.2, format := "plaintext" })

/-- `importEncryptedSecure(data, password)` from export.ts: requires a
password, and maps the `DECRYPTION_FAILED` failure of `decrypt` to the
incorrect-password-or-corrupt-file error. -/
def importEncryptedSecure (d : EncryptedExportData) (password : Option String)
    (dbSt : Db) : Except ImportError (Db × ImportResult) :=
  match password with
  | none => Except.error ImportError.requiresPassword
  | some pw =>
    match decrypt d.payload pw with
    | Except.ok exportData =>
      let res := importPlaintext exportData dbSt
      Except.ok (res.1, { res.2 with format := "encrypted" })
    | Except.error CryptoError.decryptionFailed =>
      Except.error ImportError.wrongPasswordOrCorrupt

/-- `importData(data, password?)`: format auto-detection followed by the
matching import routine; errors raised on the encrypted path propagate. -/
def importData (f : ImportFile) (password : Option String) (dbSt : Db) :
    Except ImportError (Db × ImportResult) :=
  match f with
  | ImportFile.encryptedFile d => importEncryptedSecure d password dbSt
  | ImportFile.plainFile d => Except.ok (importPlaintext d dbSt)

/-! ## C6: verification token on sync calls -/

/-- A well-formed config as produced by `setupSync`, used to exercise the
sync paths at concrete inputs. -/
def cfgProbe : SyncConfig :=
  { enabled := true, userHash := SVal.sha256 (SVal.str "u")
  , passwordHash := SVal.sha256 (SVal.str "p"), lastSyncAt := 0, deviceId := "dev" }

/-- A fully successful `sync()` environment with empty local stores. -/
def envProbe : SyncEnv :=
  { state := { localConfig := some cfgProbe, sessionPassword := some "clave" }
  , dbEntries := [], dbReviews := []
  , supabaseAvailable := true, passwordArg := none
  , entriesRpc := Except.ok (some
      { success := true, pushed := 0, pulled := 0, entries := [], serverTime := 1000 })
  , reviewsRpc := Except.ok (some
      { success := true, pushed := 0, pulled := 0, reviews := [], serverTime := 1000 })
  , clientNow := 42, entropy := fun _ => (0, 0) }

/-- A concrete entry for exercising the single-entry fast path. -/
def entryProbe : Entry :=
  { id := "e9", date := "2026-02-01", createdAt := 7, updatedAt := 8
  , content := "texto", moodTags := [], habits := "h", highlights := "l", wordCount := 1 }

/-- C6: the v2 server functions all declare `p_verification_token` and
gate every data access through `verify_user_credentials` (which counts
failures and locks after repeated invalid tokens), but the protocol
client omits the token from `sync_entries`, `sync_reviews` and
`sync_single_entry` — evaluated here at a concrete, fully successful sync
environment.  The final conjuncts exhibit the server-side counter
increment, the lockout transition and the locked-account rejection. -/
theorem sync_calls_missing_verification_token :
    ((syncRun envProbe).calls.map (fun call => (call.fn, call.args.map Prod.fst)) =
      [("sync_entries", ["p_user_hash", "p_entries", "p_last_sync_at"]),
       ("sync_reviews", ["p_user_hash", "p_reviews", "p_last_sync_at"])]) ∧
    (∀ call ∈ (syncRun envProbe).calls, ¬ "p_verification_token" ∈ call.args.map Prod.fst) ∧
    "p_verification_token" ∈ serverSyncEntriesParamNames ∧
    "p_verification_token" ∈ serverSyncReviewsParamNames ∧
    "p_verification_token" ∈ serverSyncSingleEntryParamNames ∧
    ((syncEntrySingle entryProbe
        { localConfig := some cfgProbe, sessionPassword := some "clave" } true
        (Except.ok (some { success := true, synced := true, error := none })) 1 2 99).2.1.map
      (fun call => call.args.map Prod.fst) = [["p_user_hash", "p_entry"]]) ∧
    (verifyUserCredentials 100
      [{ userHash := SVal.sha256 (SVal.str "u"), token := SVal.sha256 (SVal.str "t")
       , failedAttempts := 0, lockedUntil := none, lastSyncAt := none }]
      (SVal.sha256 (SVal.str "u")) (SVal.sha256 (SVal.str "bad")) =
      Except.ok (none,
        [{ userHash := SVal.sha256 (SVal.str "u"), token := SVal.sha256 (SVal.str "t")
         , failedAttempts := 1, lockedUntil := none, lastSyncAt := none }])) ∧
    (verifyUserCredentials 100
      [{ userHash := SVal.sha256 (SVal.str "u"), token := SVal.sha256 (SVal.str "t")
       , failedAttempts := 4, lockedUntil := none, lastSyncAt := none }]
      (SVal.sha256 (SVal.str "u")) (SVal.sha256 (SVal.str "bad")) =
      Except.ok (none,
        [{ userHash := SVal.sha256 (SVal.str "u"), token := SVal.sha256 (SVal.str "t")
         , failedAttempts := 5, lockedUntil := some (100 + LOCK_INTERVAL_MS)
         , lastSyncAt := none }])) ∧
    (verifyUserCredentials 100
      [{ userHash := SVal.sha256 (SVal.str "u"), token := SVal.sha256 (SVal.str "t")
       , failedAttempts := 5, lockedUntil := some 500, lastSyncAt := none }]
      (SVal.sha256 (SVal.str "u")) (SVal.sha256 (SVal.str "t")) =
      Except.error VerifyErr.accountLocked) := by
  refine ⟨by decide, by decide, by decide, by decide, by decide, by decide,
    by rfl, by rfl, by rfl⟩

/-! ## C8: tombstones and soft deletes -/

/-- A concrete entry that gets deleted locally. -/
def entryGone : Entry :=
  { id := "e1", date := "2026-01-02", createdAt := 5, updatedAt := 10
  , content := "x", moodTags := [], habits := "h", highlights := "l", wordCount := 1 }

/-- The sync environment of the first full sync after the local deletion
of `entryGone` from a one-entry store. -/
def envAfterDelete : SyncEnv :=
  { state := { localConfig := some cfgProbe, sessionPassword := some "clave" }
  , dbEntries := deleteEntry [entryGone] "e1", dbReviews := []
  , supabaseAvailable := true, passwordArg := none
  , entriesRpc := Except.ok (some
      { success := true, pushed := 0, pulled := 0, entries := [], serverTime := 1000 })
  , reviewsRpc := Except.ok (some
      { success := true, pushed := 0, pulled := 0, reviews := [], serverTime := 1000 })
  , clientNow := 42, entropy := fun _ => (0, 0) }

/-- C8 counterexample: deleting an entry locally removes it outright
instead of tombstoning it, so the subsequent full sync pushes an empty
batch — no record with `deleted = true` (indeed no record at all for the
deleted id) is sent to the remote store, and the deletion never
propagates. -/
theorem tombstone_push_counterexample :
    deleteEntry [entryGone] "e1" = [] ∧
    encryptEntriesBatch
      ((deleteEntry [entryGone] "e1").filter (fun e => cfgProbe.lastSyncAt < e.updatedAt))
      "clave" (fun _ => (0, 0)) = [] ∧
    ((syncRun envAfterDelete).calls.map
      (fun call => (call.fn, call.args.map Prod.fst))).head? =
      some ("sync_entries", ["p_user_hash", "p_entries", "p_last_sync_at"]) ∧
    ((syncRun envAfterDelete).calls.map (fun call => call.args.map Prod.snd) =
      [[Arg.cred cfgProbe.userHash, Arg.entriesArg [], Arg.num 0],
       [Arg.cred cfgProbe.userHash, Arg.reviewsArg [], Arg.num 0]]) := by
  exact ⟨by decide, by decide, by decide, by rfl⟩

/-- C8 amended: no remote operation ever hard-deletes a stored row (the
upsert loops of `sync_entries`, `sync_reviews` and `sync_single_entry`
only insert or overwrite-in-place, so every pre-existing row key
survives), and `sync()` applies remote tombstones by deleting the local
copy; but local deletion does not produce a tombstone: `deleteEntry`
removes the record outright, `encryptEntryForSync` never sets the
`deleted` flag, and after a local delete the collected push batch
contains no record for the deleted id. -/
theorem soft_delete_amended :
    (∀ (rows : List ServerEntryRow) (userId : SVal) (ws : List EncryptedSyncEntry),
      ∀ row ∈ rows, ∃ rowOut ∈ serverSyncEntriesUpserts rows userId ws,
        rowOut.userId = row.userId ∧ rowOut.id = row.id) ∧
    (∀ (rows : List ServerReviewRow) (userId : SVal) (ws : List EncryptedSyncReview),
      ∀ row ∈ rows, ∃ rowOut ∈ serverSyncReviewsUpserts rows userId ws,
        rowOut.userId = row.userId ∧ rowOut.id = row.id) ∧
    (∀ (e : Entry) (pw : String) (salt iv : Nat),
      (encryptEntryForSync e pw salt iv).deleted = none) ∧
    (∀ (st : List Entry) (id : String) (cursor : Nat),
      ∀ e ∈ (deleteEntry st id).filter (fun x => cursor < x.updatedAt), ¬ e.id = id) := by
  refine ⟨?_, ?_, ?_, ?_⟩
  · intro rows userId ws
    induction ws generalizing rows with
    | nil => intro row h; exact ⟨row, h, rfl, rfl⟩
    | cons w ws ih =>
      intro row h
      have hstep : ∃ rowMid ∈ upsertEntryRow rows userId w,
          rowMid.userId = row.userId ∧ rowMid.id = row.id := by
        unfold upsertEntryRow
        split
        · refine ⟨_, List.mem_map_of_mem _ h, ?_⟩
          by_cases hcond : row.userId = userId ∧ row.id = w.id ∧ row.updatedAt < w.updatedAt
          · simp [hcond]
          · simp [hcond]
        · exact ⟨row, List.mem_append_left _ h, rfl, rfl⟩
      obtain ⟨rowMid, hmem, h1, h2⟩ := hstep
      obtain ⟨rowOut, hmem2, h3, h4⟩ := ih (upsertEntryRow rows userId w) rowMid hmem
      exact ⟨rowOut, hmem2, h3.trans h1, h4.trans h2⟩
  · intro rows userId ws
    induction ws generalizing rows with
    | nil => intro row h; exact ⟨row, h, rfl, rfl⟩
    | cons w ws ih =>
      intro row h
      have hstep : ∃ rowMid ∈ upsertReviewRow rows userId w,
          rowMid.userId = row.userId ∧ rowMid.id = row.id := by
        unfold upsertReviewRow
        split
        · refine ⟨_, List.mem_map_of_mem _ h, ?_⟩
          by_cases hcond : row.userId = userId ∧ row.id = w.id ∧ row.updatedAt < w.updatedAt
          · simp [hcond]
          · simp [hcond]
        · exact ⟨row, List.mem_append_left _ h, rfl, rfl⟩
      obtain ⟨rowMid, hmem, h1, h2⟩ := hstep
      obtain ⟨rowOut, hmem2, h3, h4⟩ := ih (upsertReviewRow rows userId w) rowMid hmem
      exact ⟨rowOut, hmem2, h3.trans h1, h4.trans h2⟩
  · intro e pw salt iv
    rfl
  · intro st id cursor e he
    have he2 := List.mem_filter.mp he
    have he3 := List.mem_filter.mp he2.1
    simpa using he3.2

/-- Witness for the C8 amended theorem: a concrete pre-existing server
row survives a bulk upsert that overwrites it with a newer record. -/
theorem soft_delete_amended_witness :
    ∃ rowOut ∈ serverSyncEntriesUpserts
      [{ userId := SVal.str "u", id := "e1", entryDate := "2026-01-02"
       , data := encrypt
           { content := "x", moodTags := [], habits := "h", highlights := "l"
           , wordCount := 1, createdAt := 5 } "clave" 1 2
       , updatedAt := 10, deleted := false }]
      (SVal.str "u")
      [encryptEntryForSync entryGone "clave" 3 4]
      , rowOut.userId = SVal.str "u" ∧ rowOut.id = "e1" :=
  soft_delete_amended.1
    [{ userId := SVal.str "u", id := "e1", entryDate := "2026-01-02"
     , data := encrypt
         { content := "x", moodTags := [], habits := "h", highlights := "l"
         , wordCount := 1, createdAt := 5 } "clave" 1 2
     , updatedAt := 10, deleted := false }]
    (SVal.str "u")
    [encryptEntryForSync entryGone "clave" 3 4]
    _ (List.mem_singleton.mpr rfl)

/-! ## C7: cursor advancement -/

/-- An entries response reporting a zero `serverTime`. -/
def respZero : RpcSyncEntriesResponse :=
  { success := true, pushed := 0, pulled := 0, entries := [], serverTime := 0 }

/-- A sync environment whose entries exchange succeeds with
`serverTime = 0` and whose reviews exchange fails with a network error. -/
def envCursor : SyncEnv :=
  { state := { localConfig := some cfgProbe, sessionPassword := some "clave" }
  , dbEntries := [], dbReviews := []
  , supabaseAvailable := true, passwordArg := none
  , entriesRpc := Except.ok (some respZero)
  , reviewsRpc := Except.error "network"
  , clientNow := 42, entropy := fun _ => (0, 0) }

/-- C7 counterexample: in this run the reviews exchange fails (so the
round trip is not fully successful) and the server reports no usable
timestamp, yet `sync()` still persists the config with `lastSyncAt`
advanced to the client clock `Date.now() = 42` and reports success —
contradicting both the only-after-full-success clause and the
never-the-client-clock clause of the claim. -/
theorem sync_cursor_claim_counterexample :
    envCursor.reviewsRpc = Except.error "network" ∧
    envCursor.entriesRpc = Except.ok (some respZero) ∧
    respZero.serverTime = 0 ∧
    envCursor.clientNow = 42 ∧
    (syncRun envCursor).result.success = true ∧
    (syncRun envCursor).state.localConfig = some { cfgProbe with lastSyncAt := 42 } :=
  ⟨rfl, rfl, rfl, rfl, rfl, rfl⟩

/-- C7 amended: the cursor is advanced only when the entries exchange
succeeds — the not-configured, disabled, unavailable, missing-password
and entries-failure paths all return without modifying the stored
config — but a failed reviews exchange does not prevent advancement, and
the new cursor is the server-reported `serverTime` when that is non-zero,
falling back to the client clock when it is zero. -/
theorem sync_cursor_advance_amended :
    (∀ env : SyncEnv, env.state.localConfig = none → (syncRun env).state = env.state) ∧
    (∀ (env : SyncEnv) (config : SyncConfig), env.state.localConfig = some config →
      config.enabled = false → (syncRun env).state = env.state) ∧
    (∀ env : SyncEnv, env.supabaseAvailable = false → (syncRun env).state = env.state) ∧
    (∀ env : SyncEnv, (env.passwordArg <|> env.state.sessionPassword) = none →
      (syncRun env).state = env.state) ∧
    (∀ (env : SyncEnv) (msg : String), env.entriesRpc = Except.error msg →
      (syncRun env).state = env.state) ∧
    (∀ env : SyncEnv, env.entriesRpc = Except.ok none → (syncRun env).state = env.state) ∧
    (∀ (env : SyncEnv) (r : RpcSyncEntriesResponse), env.entriesRpc = Except.ok (some r) →
      r.success = false → (syncRun env).state = env.state) ∧
    (∀ (env : SyncEnv) (config : SyncConfig) (pw : String) (r : RpcSyncEntriesResponse),
      env.state.localConfig = some config → config.enabled = true →
      env.supabaseAvailable = true →
      (env.passwordArg <|> env.state.sessionPassword) = some pw →
      env.entriesRpc = Except.ok (some r) → r.success = true →
      (syncRun env).state.localConfig =
        some { config with lastSyncAt :=
          if r.serverTime ≠ 0 then r.serverTime else env.clientNow }) := by
  refine ⟨?_, ?_, ?_, ?_, ?_, ?_, ?_, ?_⟩
  · intro env hc
    unfold syncRun
    rw [hc]
    rfl
  · intro env config hc he
    unfold syncRun
    rw [hc]
    simp [he, syncFail]
  · intro env hsup
    unfold syncRun
    cases hc : env.state.localConfig with
    | none => rfl
    | some config =>
      by_cases he : config.enabled
      · simp [he, hsup, syncFail]
      · simp [he, syncFail]
  · intro env hpw
    unfold syncRun
    cases hc : env.state.localConfig with
    | none => rfl
    | some config =>
      by_cases he : config.enabled
      · by_cases hsup : env.supabaseAvailable
        · simp [he, hsup, hpw, syncFail]
        · simp [he, hsup, syncFail]
      · simp [he, syncFail]
  · intro env msg herr
    unfold syncRun
    cases hc : env.state.localConfig with
    | none => rfl
    | some config =>
      by_cases he : config.enabled
      · by_cases hsup : env.supabaseAvailable
        · cases hp : env.passwordArg <|> env.state.sessionPassword with
          | none => simp [he, hsup, syncFail]
          | some pw => simp [he, hsup, herr, syncFail]
        · simp [he, hsup, syncFail]
      · simp [he, syncFail]
  · intro env herr
    unfold syncRun
    cases hc : env.state.localConfig with
    | none => rfl
    | some config =>
      by_cases he : config.enabled
      · by_cases hsup : env.supabaseAvailable
        · cases hp : env.passwordArg <|> env.state.sessionPassword with
          | none => simp [he, hsup, syncFail]
          | some pw => simp [he, hsup, herr, syncFail]
        · simp [he, hsup, syncFail]
      · simp [he, syncFail]
  · intro env r herr hfail
    unfold syncRun
    cases hc : env.state.localConfig with
    | none => rfl
    | some config =>
      by_cases he : config.enabled
      · by_cases hsup : env.supabaseAvailable
        · cases hp : env.passwordArg <|> env.state.sessionPassword with
          | none => simp [he, hsup, syncFail]
          | some pw => simp [he, hsup, herr, hfail, syncFail]
        · simp [he, hsup, syncFail]
      · simp [he, syncFail]
  · intro env config pw r hc he hsup hpw hrpc hsucc
    unfold syncRun
    rw [hc]
    simp [he, hsup, hpw, hrpc, hsucc, saveSyncConfig]

/-- Witness for the C7 amended theorem: at a concrete environment whose
entries RPC fails with a network error, the stored state is untouched. -/
theorem sync_cursor_advance_amended_witness :
    (syncRun
      { state := { localConfig := some cfgProbe, sessionPassword := some "clave" }
      , dbEntries := [], dbReviews := []
      , supabaseAvailable := true, passwordArg := none
      , entriesRpc := Except.error "caida de red"
      , reviewsRpc := Except.error "caida de red"
      , clientNow := 42, entropy := fun _ => (0, 0) }).state =
      { localConfig := some cfgProbe, sessionPassword := some "clave" } :=
  sync_cursor_advance_amended.2.2.2.2.1
    { state := { localConfig := some cfgProbe, sessionPassword := some "clave" }
    , dbEntries := [], dbReviews := []
    , supabaseAvailable := true, passwordArg := none
    , entriesRpc := Except.error "caida de red"
    , reviewsRpc := Except.error "caida de red"
    , clientNow := 42, entropy := fun _ => (0, 0) } "caida de red" rfl

/-! ## C5: passphrase confinement -/

/-- A digest-headed value is never a raw string. -/
theorem svalIsHash_ne_str (v : SVal) (s : String) (h : svalIsHash v = true) :
    ¬ v = SVal.str s := by
  cases v <;> simp [svalIsHash] at h ⊢

/-- `setupSync` issues only the `register_or_auth_user` call, with the
hashed user identity and the doubly hashed verification token. -/
theorem setupSync_calls (email pw deviceId deviceName : String)
    (avail : Bool) (authRpc : Except String (Option RpcAuthResponse)) (st : ClientState) :
    (setupSync email pw deviceId deviceName avail authRpc st).2.1 =
      if avail then
        [registerCall (hashPassword (SVal.str (email.toLower.trim)))
          (hashPassword (hashPassword (SVal.str pw))) deviceId deviceName]
      else [] := by
  unfold setupSync
  by_cases hav : avail
  · simp only [hav, not_true, if_neg, if_pos]
    cases authRpc with
    | error msg => rfl
    | ok data =>
      cases data with
      | none => rfl
      | some d =>
        by_cases hs : d.success <;> simp [hs]
  · simp [hav]

/-- Every call issued by `sync()` is the entries call or the reviews
call, built from the stored config. -/
theorem syncRun_calls_shape (env : SyncEnv) (config : SyncConfig)
    (hc : env.state.localConfig = some config) :
    ∀ call ∈ (syncRun env).calls,
      (∃ es, call = syncEntriesCall config es) ∨ (∃ rs, call = syncReviewsCall config rs) := by
  intro call hcall
  unfold syncRun at hcall
  rw [hc] at hcall
  by_cases he : config.enabled
  · by_cases hsup : env.supabaseAvailable
    · cases hp : env.passwordArg <|> env.state.sessionPassword with
      | none => simp [he, hsup, hp, syncFail] at hcall
      | some pw =>
        cases hr : env.entriesRpc with
        | error msg =>
          simp [he, hsup, hp, hr, syncFail] at hcall
          exact Or.inl ⟨_, hcall⟩
        | ok data =>
          cases data with
          | none =>
            simp [he, hsup, hp, hr, syncFail] at hcall
            exact Or.inl ⟨_, hcall⟩
          | some r =>
            by_cases hs : r.success
            · simp only [he, hsup, hp, hr, hs, syncFail] at hcall
              simp at hcall
              rcases hcall with hcall | hcall
              · exact Or.inl ⟨_, hcall⟩
              · exact Or.inr ⟨_, hcall⟩
            · simp [he, hsup, hp, hr, hs, syncFail] at hcall
              exact Or.inl ⟨_, hcall⟩
    · simp [he, hsup, syncFail] at hcall
  · simp [he, syncFail] at hcall

/-- Every call issued by the fast path `syncEntry` is the single-entry
call built from the stored config. -/
theorem syncEntrySingle_calls_shape (entry : Entry) (st : ClientState) (avail : Bool)
    (rpc : Except String (Option RpcSingleEntryResponse)) (salt iv now : Nat)
    (config : SyncConfig) (hc : st.localConfig = some config) :
    ∀ call ∈ (syncEntrySingle entry st avail rpc salt iv now).2.1,
      ∃ enc, call = singleEntryCall config enc := by
  intro call hcall
  unfold syncEntrySingle at hcall
  rw [hc] at hcall
  by_cases he : config.enabled
  · cases hp : getSyncPassword st with
    | none => simp [he, hp] at hcall
    | some pw =>
      by_cases hsup : avail
      · cases hr : rpc with
        | error msg =>
          simp [he, hp, hsup, hr] at hcall
          exact ⟨_, hcall⟩
        | ok data =>
          cases data with
          | none =>
            simp [he, hp, hsup, hr] at hcall
            exact ⟨_, hcall⟩
          | some d =>
            by_cases hs : d.success <;> simp [he, hp, hsup, hr, hs] at hcall <;>
              exact ⟨_, hcall⟩
      · simp [he, hp, hsup] at hcall
  · simp [he] at hcall

/-- C5: the session passphrase is confined.  Every credential argument of
the one call made by `setupSync` is the hashed user identity or the
doubly hashed verification token `hashPassword(hashPassword(password))`
— never the raw passphrase — and no argument carries the passphrase as a
plain string; on success the persisted `SyncConfig` holds only digests
(never the passphrase, which goes exclusively to the volatile session
slot); and every call made by `sync()` and `syncEntry` carries only the
configured (digest) user hash as credential material and no raw string
at all. -/
theorem session_passphrase_confinement
    (email pw deviceId deviceName : String)
    (avail : Bool) (authRpc : Except String (Option RpcAuthResponse))
    (st : ClientState)
    (hdev : ¬ deviceId = pw) (hname : ¬ deviceName = pw) :
    (∀ call ∈ (setupSync email pw deviceId deviceName avail authRpc st).2.1,
      ∀ pr ∈ call.args,
        argIsRawString pr.2 pw = false ∧
        (∀ v, pr.2 = Arg.cred v →
          v = hashPassword (SVal.str (email.toLower.trim)) ∨
          v = hashPassword (hashPassword (SVal.str pw)))) ∧
    (∀ data, avail = true → authRpc = Except.ok (some data) → data.success = true →
      (setupSync email pw deviceId deviceName avail authRpc st).1 =
        { localConfig := some
            { enabled := true
            , userHash := hashPassword (SVal.str (email.toLower.trim))
            , passwordHash := hashPassword (SVal.str pw)
            , lastSyncAt := 0, deviceId := deviceId }
        , sessionPassword := some pw }) ∧
    (¬ hashPassword (SVal.str pw) = SVal.str pw) ∧
    (¬ hashPassword (SVal.str (email.toLower.trim)) = SVal.str pw) ∧
    (svalIsHash (hashPassword (SVal.str (email.toLower.trim))) = true) ∧
    (∀ (env : SyncEnv) (config : SyncConfig), env.state.localConfig = some config →
      svalIsHash config.userHash = true →
      ∀ call ∈ (syncRun env).calls, ∀ pr ∈ call.args,
        (∀ s : String, argIsRawString pr.2 s = false) ∧
        (∀ v, pr.2 = Arg.cred v → v = config.userHash)) ∧
    (∀ (entry : Entry) (st2 : ClientState) (avail2 : Bool)
      (rpc : Except String (Option RpcSingleEntryResponse)) (salt iv now : Nat)
      (config : SyncConfig), st2.localConfig = some config →
      svalIsHash config.userHash = true →
      ∀ call ∈ (syncEntrySingle entry st2 avail2 rpc salt iv now).2.1, ∀ pr ∈ call.args,
        (∀ s : String, argIsRawString pr.2 s = false) ∧
        (∀ v, pr.2 = Arg.cred v → v = config.userHash)) := by
  refine ⟨?_, ?_, ?_, ?_, rfl, ?_, ?_⟩
  · intro call hcall pr hpr
    rw [setupSync_calls] at hcall
    by_cases hav : avail
    · rw [if_pos hav] at hcall
      rw [List.mem_singleton] at hcall
      subst hcall
      simp only [registerCall] at hpr
      simp at hpr
      rcases hpr with h | h | h | h <;> subst h
      · exact ⟨by simp [argIsRawString, hashPassword], fun v hv => by
          cases hv; exact Or.inl rfl⟩
      · exact ⟨by simp [argIsRawString, hashPassword], fun v hv => by
          cases hv; exact Or.inr rfl⟩
      · exact ⟨by simp [argIsRawString, hdev], fun v hv => by cases hv⟩
      · exact ⟨by simp [argIsRawString, hname], fun v hv => by cases hv⟩
    · rw [if_neg hav] at hcall
      cases hcall
  · intro data hav hrpc hsucc
    unfold setupSync
    rw [hrpc]
    simp [hav, hsucc, saveSyncConfig, setSyncPassword]
  · simp [hashPassword]
  · simp [hashPassword]
  · intro env config hc hhash call hcall pr hpr
    rcases syncRun_calls_shape env config hc call hcall with ⟨es, rfl⟩ | ⟨rs, rfl⟩
    · simp only [syncEntriesCall] at hpr
      simp at hpr
      rcases hpr with h | h | h <;> subst h
      · exact ⟨fun s => by
          simp [argIsRawString, svalIsHash_ne_str config.userHash s hhash],
          fun v hv => by cases hv; rfl⟩
      · exact ⟨fun s => by simp [argIsRawString], fun v hv => by cases hv⟩
      · exact ⟨fun s => by simp [argIsRawString], fun v hv => by cases hv⟩
    · simp only [syncReviewsCall] at hpr
      simp at hpr
      rcases hpr with h | h | h <;> subst h
      · exact ⟨fun s => by
          simp [argIsRawString, svalIsHash_ne_str config.userHash s hhash],
          fun v hv => by cases hv; rfl⟩
      · exact ⟨fun s => by simp [argIsRawString], fun v hv => by cases hv⟩
      · exact ⟨fun s => by simp [argIsRawString], fun v hv => by cases hv⟩
  · intro entry st2 avail2 rpc salt iv now config hc hhash call hcall pr hpr
    rcases syncEntrySingle_calls_shape entry st2 avail2 rpc salt iv now config hc
      call hcall with ⟨enc, rfl⟩
    simp only [singleEntryCall] at hpr
    simp at hpr
    rcases hpr with h | h <;> subst h
    · exact ⟨fun s => by
        simp [argIsRawString, svalIsHash_ne_str config.userHash s hhash],
        fun v hv => by cases hv; rfl⟩
    · exact ⟨fun s => by simp [argIsRawString], fun v hv => by cases hv⟩

/-- Witness for C5: at a concrete registration, the persisted client
state holds the digests in durable config and the passphrase only in the
session slot. -/
theorem session_passphrase_confinement_witness :
    (setupSync "A@x.com " "clave" "dev-1" "iPhone" true
      (Except.ok (some { success := true, isNew := some true, error := none }))
      { localConfig := none, sessionPassword := none }).1 =
      { localConfig := some
          { enabled := true
          , userHash := hashPassword (SVal.str ("A@x.com ".toLower.trim))
          , passwordHash := hashPassword (SVal.str "clave")
          , lastSyncAt := 0, deviceId := "dev-1" }
      , sessionPassword := some "clave" } :=
  (session_passphrase_confinement "A@x.com " "clave" "dev-1" "iPhone" true
    (Except.ok (some { success := true, isNew := some true, error := none }))
    { localConfig := none, sessionPassword := none }
    (by decide) (by decide)).2.1
    { success := true, isNew := some true, error := none } rfl rfl rfl

/-! ## C9: encrypted export/import round trip -/

/-- Entry lookup distributes over an appended singleton. -/
theorem dbGet_append_singleton (l : List Entry) (e : Entry) (x : String) :
    dbGet (l ++ [e]) x = ((dbGet l x).or (if e.id = x then some e else none)) := by
  unfold dbGet
  rw [List.find?_append]
  congr 1
  simp [List.find?]
  split <;> simp_all

/-- Review lookup distributes over an appended singleton. -/
theorem dbGetReview_append_singleton (l : List Review) (r : Review) (x : String) :
    dbGetReview (l ++ [r]) x = ((dbGetReview l x).or (if r.id = x then some r else none)) := by
  unfold dbGetReview
  rw [List.find?_append]
  congr 1
  simp [List.find?]
  split <;> simp_all

/-- The entries loop of `importPlaintext` appends every incoming entry
when none of them is already present and their ids are distinct. -/
theorem importEntries_fresh (new : List Entry) :
    ∀ (init : List Entry) (counts : Nat × Nat),
      (∀ e ∈ new, dbGet init e.id = none) → (new.map Entry.id).Nodup →
      (new.foldl (fun p e => importEntriesStep p.1 p.2 e) (init, counts)).1 = init ++ new := by
  induction new with
  | nil =>
    intro init counts _ _
    simp
  | cons e tl ih =>
    intro init counts h hn
    have he : dbGet init e.id = none := h e (List.mem_cons_self e tl)
    have hstep : importEntriesStep init counts e = (init ++ [e], (counts.1 + 1, counts.2)) := by
      simp [importEntriesStep, he]
    rw [List.foldl_cons, hstep]
    have hmapn : (∀ x ∈ tl, ¬ x.id = e.id) ∧ (tl.map Entry.id).Nodup := by
      simpa using hn
    have htl : ∀ x ∈ tl, dbGet (init ++ [e]) x.id = none := by
      intro x hx
      rw [dbGet_append_singleton, h x (List.mem_cons_of_mem e hx)]
      have hne : ¬ e.id = x.id := fun hcontra => hmapn.1 x hx hcontra.symm
      simp [hne]
    have := ih (init ++ [e]) (counts.1 + 1, counts.2) htl hmapn.2
    rw [this]
    simp

/-- The reviews loop of `importPlaintext` appends every incoming review
when none of them is already present and their ids are distinct. -/
theorem importReviews_fresh (new : List Review) :
    ∀ (init : List Review) (imported : Nat),
      (∀ r ∈ new, dbGetReview init r.id = none) → (new.map Review.id).Nodup →
      (new.foldl (fun p r => importReviewsStep p.1 p.2 r) (init, imported)).1 = init ++ new := by
  induction new with
  | nil =>
    intro init imported _ _
    simp
  | cons r tl ih =>
    intro init imported h hn
    have hr : dbGetReview init r.id = none := h r (List.mem_cons_self r tl)
    have hstep : importReviewsStep init imported r = (init ++ [r], imported + 1) := by
      simp [importReviewsStep, hr]
    rw [List.foldl_cons, hstep]
    have hmapn : (∀ x ∈ tl, ¬ x.id = r.id) ∧ (tl.map Review.id).Nodup := by
      simpa using hn
    have htl : ∀ x ∈ tl, dbGetReview (init ++ [r]) x.id = none := by
      intro x hx
      rw [dbGetReview_append_singleton, h x (List.mem_cons_of_mem r hx)]
      have hne : ¬ r.id = x.id := fun hcontra => hmapn.1 x hx hcontra.symm
      simp [hne]
    have := ih (init ++ [r]) (imported + 1) htl hmapn.2
    rw [this]
    simp

/-- Importing a plaintext bundle into the empty database reproduces its
entry and review lists exactly (given key uniqueness) and installs its
settings. -/
theorem importPlaintext_into_empty (d : ExportData)
    (hids : (d.entries.map Entry.id).Nodup) (hrids : (d.reviews.map Review.id).Nodup) :
    (importPlaintext d emptyDb).1.entries = d.entries ∧
    (importPlaintext d emptyDb).1.reviews = d.reviews ∧
    (importPlaintext d emptyDb).1.settings = d.settings := by
  have hent := importEntries_fresh d.entries [] (0, 0) (fun e _ => rfl) hids
  refine ⟨?_, ?_, ?_⟩
  · simpa [importPlaintext] using hent
  · have hrev := importReviews_fresh d.reviews []
      ((d.entries.foldl (fun p e => importEntriesStep p.1 p.2 e) ([], (0, 0))).2.1)
      (fun r _ => rfl) hrids
    simpa [importPlaintext] using hrev
  · cases hs : d.settings <;> simp [importPlaintext, emptyDb, hs]

/-- C9: for every database and password of accepted length (at least 8
characters), `importData (exportEncryptedSecure pw) pw` into an empty
store reproduces the exported entry and review sets exactly; importing
the encrypted bundle with no password fails with the password-required
error; importing it with a wrong password fails with the error derived
from the `DECRYPTION_FAILED` failure of `decrypt`. -/
theorem export_import_roundtrip (dbSt : Db) (pw : String) (now salt iv : Nat)
    (hlen : ¬ pw.length < 8)
    (hids : (dbSt.entries.map Entry.id).Nodup)
    (hrids : (dbSt.reviews.map Review.id).Nodup) :
    ∃ f, exportEncryptedSecure dbSt pw now salt iv = Except.ok f ∧
      (∃ out, importData (ImportFile.encryptedFile f) (some pw) emptyDb = Except.ok out ∧
        out.1.entries = dbSt.entries ∧ out.1.reviews = dbSt.reviews ∧
        out.1.settings = dbSt.settings) ∧
      (∀ dbAny, importData (ImportFile.encryptedFile f) none dbAny =
        Except.error ImportError.requiresPassword) ∧
      (∀ w2, ¬ w2 = pw → ∀ dbAny, importData (ImportFile.encryptedFile f) (some w2) dbAny =
        Except.error ImportError.wrongPasswordOrCorrupt) := by
  refine ⟨({ version := "2.0.0", exportedAt := now
           , payload := encrypt
               ({ version := "2.0.0", exportedAt := now, entries := dbSt.entries
                , settings := dbSt.settings, reviews := dbSt.reviews } : ExportData)
               pw salt iv } : EncryptedExportData)
        , by simp [exportEncryptedSecure, hlen], ?_, ?_, ?_⟩
  · have hdec : decrypt (encrypt
        ({ version := "2.0.0", exportedAt := now, entries := dbSt.entries
         , settings := dbSt.settings, reviews := dbSt.reviews } : ExportData) pw salt iv) pw =
        Except.ok
          ({ version := "2.0.0", exportedAt := now, entries := dbSt.entries
           , settings := dbSt.settings, reviews := dbSt.reviews } : ExportData) :=
      encrypt_decrypt_ok _ pw salt iv
    obtain ⟨h1, h2, h3⟩ := importPlaintext_into_empty
      ({ version := "2.0.0", exportedAt := now, entries := dbSt.entries
       , settings := dbSt.settings, reviews := dbSt.reviews } : ExportData) hids hrids
    refine ⟨((importPlaintext
        ({ version := "2.0.0", exportedAt := now, entries := dbSt.entries
         , settings := dbSt.settings, reviews := dbSt.reviews } : ExportData) emptyDb).1,
      { (importPlaintext
          ({ version := "2.0.0", exportedAt := now, entries := dbSt.entries
           , settings := dbSt.settings, reviews := dbSt.reviews } : ExportData) emptyDb).2
        with format := "encrypted" }), ?_, h1, h2, h3⟩
    simp [importData, importEncryptedSecure, hdec]
  · intro dbAny
    rfl
  · intro w2 hne dbAny
    have hdec := encrypt_decrypt_wrong
      ({ version := "2.0.0", exportedAt := now, entries := dbSt.entries
       , settings := dbSt.settings, reviews := dbSt.reviews } : ExportData) pw w2 salt iv
      (fun hcontra => hne hcontra.symm)
    simp [importData, importEncryptedSecure, hdec]

/-- Witness for C9: the round trip applied at a concrete one-entry,
one-review database with an 8-character password. -/
theorem export_import_roundtrip_witness :
    ∃ f, exportEncryptedSecure
      { entries := [entryProbe], settings := none
      , reviews := [{ id := "r1", type := "weekly", periodStart := "2026-01-05"
                    , reflectionText := "texto", goals := [], createdAt := 50 }] }
      "clave123" 7 1 2 = Except.ok f ∧
      (∃ out, importData (ImportFile.encryptedFile f) (some "clave123") emptyDb =
          Except.ok out ∧
        out.1.entries = [entryProbe] ∧
        out.1.reviews = [{ id := "r1", type := "weekly", periodStart := "2026-01-05"
                         , reflectionText := "texto", goals := [], createdAt := 50 }] ∧
        out.1.settings = none) ∧
      (∀ dbAny, importData (ImportFile.encryptedFile f) none dbAny =
        Except.error ImportError.requiresPassword) ∧
      (∀ w2, ¬ w2 = "clave123" → ∀ dbAny,
        importData (ImportFile.encryptedFile f) (some w2) dbAny =
          Except.error ImportError.wrongPasswordOrCorrupt) :=
  export_import_roundtrip
    { entries := [entryProbe], settings := none
    , reviews := [{ id := "r1", type := "weekly", periodStart := "2026-01-05"
                  , reflectionText := "texto", goals := [], createdAt := 50 }] }
    "clave123" 7 1 2 (by decide) (by decide) (by decide)

end Espejo
